import Mathlib

/-!
Verification of the transaction-processing program in `src/main.rs`.

The embedding below translates the program's data model and operations into
Lean definitions:

* `InputTransaction` and `Customer` mirror the Rust structs (string fields,
  exact-decimal balances, a per-customer transaction log).
* `rust_decimal::Decimal` is an exact decimal type: a 96-bit magnitude with a
  scale of at most 28, so every representable value is an integer multiple of
  `10^-28` and the representable range is `[-(2^96 - 1), 2^96 - 1]`.  It is
  modelled here in fixed point: a value is the integer number of `10^-28`
  units (`dec m s` denotes the decimal `m * 10^-s`).  `checked_add` and
  `checked_sub` return `none` outside the range `[decMIN, decMAX]`;
  `saturating_add` and `saturating_sub` clamp to it.  This is exact for every
  value manipulated in this development.
* `rust_trim` models `str::trim` (remove leading and trailing whitespace);
  `parseU32` models `u32::from_str` (optional leading plus, ASCII digits,
  value below `2^32`); `parseDecimal` models `Decimal::from_str` on the
  standard grammar (optional sign, digits with at most one decimal point,
  at least one digit, at most 28 fractional digits, mantissa below `2^96`).
* Fallible steps return `Option`: in `change_balance` the `expect` panic is
  modelled as `none`, and in ingestion the `Err` produced by
  `add_customer_transaction` is modelled as `none`.
-/

structure InputTransaction where
  typ : String
  client : String
  tx : String
  amount : String
deriving DecidableEq, Repr

structure Customer where
  available : ℤ
  held : ℤ
  total : ℤ
  locked : Bool
  transactions : List InputTransaction
deriving DecidableEq, Repr

/-- Mirrors `Customer::new` (src/main.rs lines 35-45): all balances zero,
unlocked, empty transaction log. -/
def Customer.new : Customer :=
  { available := 0, held := 0, total := 0, locked := false, transactions := [] }

/-- The decimal value `m * 10^-s`, as an integer count of `10^-28` units
(meaningful for scales `s ≤ 28`). -/
def dec (m : ℤ) (s : ℕ) : ℤ := m * 10 ^ (28 - s)

/-- The largest `rust_decimal::Decimal` value, `2^96 - 1`, in `10^-28` units. -/
def decMAX : ℤ := dec 79228162514264337593543950335 0

/-- The smallest `rust_decimal::Decimal` value, `-(2^96 - 1)`, in `10^-28`
units. -/
def decMIN : ℤ := -decMAX

/-- Model of `Decimal::checked_add`: the exact sum when it lies in the
representable range, `none` on overflow. -/
def checked_add (a b : ℤ) : Option ℤ :=
  if decMIN ≤ a + b ∧ a + b ≤ decMAX then some (a + b) else none

/-- Model of `Decimal::checked_sub`: the exact difference when it lies in the
representable range, `none` on overflow. -/
def checked_sub (a b : ℤ) : Option ℤ :=
  if decMIN ≤ a - b ∧ a - b ≤ decMAX then some (a - b) else none

/-- Model of `Decimal::saturating_add`: the exact sum clamped to the
representable range. -/
def saturating_add (a b : ℤ) : ℤ :=
  if a + b > decMAX then decMAX else if a + b < decMIN then decMIN else a + b

/-- Model of `Decimal::saturating_sub`: the exact difference clamped to the
representable range. -/
def saturating_sub (a b : ℤ) : ℤ :=
  if a - b > decMAX then decMAX else if a - b < decMIN then decMIN else a - b

/-- Model of `str::trim`: remove leading and trailing whitespace characters. -/
def rust_trim (s : String) : String :=
  ⟨((s.data.dropWhile Char.isWhitespace).reverse.dropWhile Char.isWhitespace).reverse⟩

/-- Model of `u32::from_str` applied to an already-trimmed string: an optional
leading plus sign followed by at least one ASCII digit, value below `2^32`. -/
def parseU32 (s : String) : Option ℕ :=
  let cs := s.toList
  let cs := match cs with
    | '+' :: rest => rest
    | _ => cs
  if cs ≠ [] ∧ cs.all (fun c => c.isDigit) then
    let n := cs.foldl (fun acc c => acc * 10 + (c.toNat - 48)) 0
    if n < 4294967296 then some n else none
  else none

/-- Model of `Decimal::from_str` on the standard grammar: optional sign,
digits with at most one decimal point, at least one digit, at most 28
fractional digits, mantissa below `2^96`.  The result is in `10^-28` units. -/
def parseDecimal (s : String) : Option ℤ :=
  let cs := s.toList
  let signed : Bool × List Char := match cs with
    | '-' :: rest => (true, rest)
    | '+' :: rest => (false, rest)
    | _ => (false, cs)
  let neg := signed.1
  let body := signed.2
  let intPart := body.takeWhile (fun c => c ≠ '.')
  let rest := body.dropWhile (fun c => c ≠ '.')
  let fracPart : Option (List Char) := match rest with
    | [] => some []
    | _ :: frac => if frac.all (fun c => c ≠ '.') then some frac else none
  match fracPart with
  | none => none
  | some frac =>
    if intPart.all (fun c => c.isDigit) ∧ frac.all (fun c => c.isDigit) ∧
        (intPart ≠ [] ∨ frac ≠ []) ∧ frac.length ≤ 28 then
      let mantissa : ℕ := (intPart ++ frac).foldl (fun acc c => acc * 10 + (c.toNat - 48)) 0
      if mantissa < 79228162514264337593543950336 then
        let q : ℤ := dec (mantissa : ℤ) frac.length
        some (if neg then -q else q)
      else none
    else none

/-- Mirrors `change_balance` (src/main.rs lines 93-114), used for deposit and
withdrawal. An unparsable amount or an overflow on `total` leaves the customer
unchanged; the `expect` panic when the checked operation on `available` fails
is modelled as `none`. -/
def change_balance (customer : Customer) (tx : InputTransaction)
    (f : ℤ → ℤ → Option ℤ) : Option Customer :=
  match parseDecimal (rust_trim tx.amount) with
  | none => some customer
  | some amount =>
    match f customer.total amount with
    | none => some customer
    | some newTotal =>
      match f customer.available amount with
      | some newAvailable =>
        some { customer with total := newTotal, available := newAvailable }
      | none => none

/-- Mirrors `do_deposit` (src/main.rs lines 116-118). -/
def do_deposit (customer : Customer) (tx : InputTransaction) : Option Customer :=
  change_balance customer tx checked_add

/-- Mirrors `do_withdrawal` (src/main.rs lines 120-122). -/
def do_withdrawal (customer : Customer) (tx : InputTransaction) : Option Customer :=
  change_balance customer tx checked_sub

/-- Mirrors `find_transaction` (src/main.rs lines 171-182): the first record in
the customer's log whose transaction id field parses to `txId`. -/
def find_transaction (customer : Customer) (txId : ℕ) : Option InputTransaction :=
  customer.transactions.find? (fun t =>
    match parseU32 (rust_trim t.tx) with
    | some thisId => thisId == txId
    | none => false)

/-- Mirrors `find_disputed_transaction` (src/main.rs lines 130-148): parse the
referencing record's transaction id and look it up in the customer's log. -/
def find_disputed_transaction (customer : Customer) (tx : InputTransaction) :
    Option InputTransaction :=
  match parseU32 (rust_trim tx.tx) with
  | some txId => find_transaction customer txId
  | none => none

/-- Mirrors `dispute_transaction` (src/main.rs lines 150-169). Note the
untrimmed comparison `tx.typ == DEPOSIT` and the saturating arithmetic, both
as in the source. -/
def dispute_transaction (customer : Customer) (tx : InputTransaction) : Customer :=
  if tx.typ = "deposit" then
    match parseDecimal (rust_trim tx.amount) with
    | some amount =>
      { customer with
          held := saturating_add customer.held amount,
          available := saturating_sub customer.available amount }
    | none => customer
  else customer

/-- Mirrors `resolve_transaction` (src/main.rs lines 194-213). -/
def resolve_transaction (customer : Customer) (tx : InputTransaction) : Customer :=
  if tx.typ = "deposit" then
    match parseDecimal (rust_trim tx.amount) with
    | some amount =>
      { customer with
          held := saturating_sub customer.held amount,
          available := saturating_add customer.available amount }
    | none => customer
  else customer

/-- Mirrors `chargeback_transaction` (src/main.rs lines 221-241). -/
def chargeback_transaction (customer : Customer) (tx : InputTransaction) : Customer :=
  if tx.typ = "deposit" then
    match parseDecimal (rust_trim tx.amount) with
    | some amount =>
      { customer with
          held := saturating_sub customer.held amount,
          total := saturating_sub customer.total amount,
          locked := true }
    | none => customer
  else customer

/-- Mirrors `do_dispute` (src/main.rs lines 124-128). -/
def do_dispute (customer : Customer) (tx : InputTransaction) : Customer :=
  match find_disputed_transaction customer tx with
  | some r => dispute_transaction customer r
  | none => customer

/-- Mirrors `do_resolve` (src/main.rs lines 188-192). -/
def do_resolve (customer : Customer) (tx : InputTransaction) : Customer :=
  match find_disputed_transaction customer tx with
  | some r => resolve_transaction customer r
  | none => customer

/-- Mirrors `do_chargeback` (src/main.rs lines 215-219). -/
def do_chargeback (customer : Customer) (tx : InputTransaction) : Customer :=
  match find_disputed_transaction customer tx with
  | some r => chargeback_transaction customer r
  | none => customer

/-- Mirrors the dispatch match in `compute_customer_state_from_transactions`
(src/main.rs lines 80-87): dispatch on the trimmed type string; an unknown
type is a logged no-op. `none` models a process abort (panic). -/
def apply_transaction (c : Customer) (t : InputTransaction) : Option Customer :=
  if rust_trim t.typ = "deposit" then do_deposit c t
  else if rust_trim t.typ = "withdrawal" then do_withdrawal c t
  else if rust_trim t.typ = "dispute" then some (do_dispute c t)
  else if rust_trim t.typ = "resolve" then some (do_resolve c t)
  else if rust_trim t.typ = "chargeback" then some (do_chargeback c t)
  else some c

/-- The inner loop of `compute_customer_state_from_transactions` (src/main.rs
lines 77-89): fold the transaction list through `apply_transaction`. -/
def replay_transactions : Customer → List InputTransaction → Option Customer
  | c, [] => some c
  | c, t :: ts =>
    match apply_transaction c t with
    | some c' => replay_transactions c' ts
    | none => none

/-- One customer's slice of `compute_customer_state_from_transactions`
(src/main.rs lines 76-90): replay the customer's own (already complete) log.
The log itself is never modified during replay, matching the source, which
iterates over a clone while lookups read the unchanged `transactions` field. -/
def compute_customer_state (c : Customer) : Option Customer :=
  replay_transactions c c.transactions

/-- The `HashMap<u32, Customer>` of the source, modelled as a function from
client ids. -/
def CustomerMap : Type := ℕ → Option Customer

/-- Mirrors `CustomerMap::new`. -/
def emptyCustomerMap : CustomerMap := fun _ => none

/-- Mirrors `add_customer_transaction` (src/main.rs lines 275-286): parse the
client id (an unparsable client id yields `Err`, modelled as `none`), create
the customer on first reference, and append the record to the customer's log.
The transaction id field is not inspected here. -/
def add_customer_transaction (tx : InputTransaction) (customers : CustomerMap) :
    Option CustomerMap :=
  match parseU32 (rust_trim tx.client) with
  | none => none
  | some clientId =>
    let customer := (customers clientId).getD Customer.new
    some (fun k =>
      if k = clientId then
        some { customer with transactions := customer.transactions ++ [tx] }
      else customers k)

/-- Mirrors `organize_transactions_by_customer` (src/main.rs lines 247-273)
restricted to the successfully deserialized records (rows that fail CSV
deserialization are counted and skipped before `process` runs, so they never
appear in the input list). The `?` on `process(tx, customers)?` propagates the
first `Err` out of the loop, abandoning the remaining records; the map keeps
the customers accumulated so far, which is what the caller (which discards the
returned `Result`) goes on to use. -/
def organize_transactions_by_customer :
    CustomerMap → (InputTransaction → CustomerMap → Option CustomerMap) →
    List InputTransaction → CustomerMap
  | customers, _, [] => customers
  | customers, process, tx :: rest =>
    match process tx customers with
    | some m => organize_transactions_by_customer m process rest
    | none => customers

/-! ### Concrete inputs used by the claims -/

/-- The decimal string for the largest representable value, `2^96 - 1`. -/
def maxAmountStr : String := "79228162514264337593543950335"

/-- The five-row end-to-end example from the specification. -/
def exampleRows : List InputTransaction :=
  [⟨"deposit", "1", "1", "1.0"⟩, ⟨"deposit", "2", "2", "2.0"⟩,
   ⟨"deposit", "1", "3", "2.0"⟩, ⟨"withdrawal", "1", "4", "1.5"⟩,
   ⟨"withdrawal", "2", "5", "3.0"⟩]

/-- A deposit record whose transaction id field is not numeric. -/
def badTxRecord : InputTransaction := ⟨"deposit", "7", "xyz", "5.0"⟩

/-- A log that deposits the maximal value and then disputes it twice; the
second dispute saturates `held` while `available` moves exactly. -/
def doubleDisputeLog : List InputTransaction :=
  [⟨"deposit", "1", "1", maxAmountStr⟩, ⟨"dispute", "1", "1", ""⟩,
   ⟨"dispute", "1", "1", ""⟩]

/-- A log on which the dispute of transaction 1 saturates `available` (the
account is at `-decMAX` when the dispute arrives), so the following resolve
does not restore the pre-dispute balances. -/
def saturationLog : List InputTransaction :=
  [⟨"deposit", "1", "1", maxAmountStr⟩, ⟨"withdrawal", "1", "2", maxAmountStr⟩,
   ⟨"withdrawal", "1", "3", maxAmountStr⟩, ⟨"dispute", "1", "1", ""⟩,
   ⟨"resolve", "1", "1", ""⟩]

/-- A log on which the final deposit succeeds on `total` but overflows on
`available`, making the `expect` in `change_balance` panic. -/
def overflowAbortLog : List InputTransaction :=
  [⟨"deposit", "1", "1", maxAmountStr⟩, ⟨"withdrawal", "1", "2", maxAmountStr⟩,
   ⟨"resolve", "1", "1", ""⟩, ⟨"deposit", "1", "3", "1"⟩]

/-! ### Saturation side conditions for the amended invariant claims -/

/-- The saturating operations that one transaction would perform on a
customer's balances are all exact (no clamping occurs): whenever the
transaction's lookup resolves to a deposit with a parsable amount, each
saturating sum or difference that dispute/resolve/chargeback could take
equals its exact value. -/
def no_saturation_step (c : Customer) (t : InputTransaction) : Prop :=
  ∀ r, find_disputed_transaction c t = some r → r.typ = "deposit" →
    ∀ a, parseDecimal (rust_trim r.amount) = some a →
      saturating_add c.held a = c.held + a ∧ saturating_sub c.available a = c.available - a ∧
      saturating_sub c.held a = c.held - a ∧ saturating_add c.available a = c.available + a ∧
      saturating_sub c.total a = c.total - a

/-- `no_saturation_step` holds at every state traversed while replaying the
given transaction list. -/
def no_saturation_replay : Customer → List InputTransaction → Prop
  | _, [] => True
  | c, t :: ts => no_saturation_step c t ∧
      ∀ c', apply_transaction c t = some c' → no_saturation_replay c' ts

/-! ### Witness inputs -/

/-- A small deposit used to exercise the amended invariant claim. -/
def wSmallDeposit : InputTransaction := ⟨"deposit", "1", "1", "2.5"⟩

/-- A deposit of 2 used to exercise the atomic-commit claim. -/
def wDepositTwo : InputTransaction := ⟨"deposit", "1", "1", "2"⟩

/-- A customer holding 2.0 available, about to withdraw 3.0. -/
def wNegBase : Customer := ⟨dec 2 0, 0, dec 2 0, false, []⟩

/-- A withdrawal of 3.0, exceeding `wNegBase`'s available funds. -/
def wWithdrawThree : InputTransaction := ⟨"withdrawal", "2", "5", "3.0"⟩

/-- A deposit of 4 sitting in a customer's log. -/
def wDepositFour : InputTransaction := ⟨"deposit", "1", "1", "4"⟩

/-- The state just before a dispute of `wDepositFour`. -/
def wPreDispute : Customer := ⟨dec 4 0, 0, dec 4 0, false, [wDepositFour]⟩

/-- The state after disputing `wDepositFour` from `wPreDispute`. -/
def wMidDispute : Customer := ⟨0, dec 4 0, dec 4 0, false, [wDepositFour]⟩

/-- A dispute referencing transaction 1. -/
def wDisputeOne : InputTransaction := ⟨"dispute", "1", "1", ""⟩

/-- A resolve referencing transaction 1. -/
def wResolveOne : InputTransaction := ⟨"resolve", "1", "1", ""⟩

/-- A dispute referencing a transaction id absent from the log. -/
def wDisputeNine : InputTransaction := ⟨"dispute", "1", "9", ""⟩

/-- A customer with a deposit of 5 applied, before a chargeback. -/
def wPreChargeback : Customer := ⟨dec 5 0, 0, dec 5 0, false, [⟨"deposit", "1", "1", "5"⟩]⟩

/-- `wPreChargeback` after the chargeback of transaction 1: `held` and `total`
drop by 5 and the account locks. -/
def wPostChargeback : Customer :=
  ⟨dec 5 0, dec (-5) 0, 0, true, [⟨"deposit", "1", "1", "5"⟩]⟩

/-! ### Helper lemmas -/

/-- A successful `checked_add` returns the exact sum. -/
lemma checked_add_some {a b x : ℤ} (h : checked_add a b = some x) : x = a + b := by
  unfold checked_add at h
  split at h
  · exact (Option.some.inj h).symm
  · exact Option.noConfusion h

/-- A successful `checked_sub` returns the exact difference. -/
lemma checked_sub_some {a b x : ℤ} (h : checked_sub a b = some x) : x = a - b := by
  unfold checked_sub at h
  split at h
  · exact (Option.some.inj h).symm
  · exact Option.noConfusion h

/-- A record whose trimmed type is `deposit` is dispatched to `do_deposit`. -/
lemma apply_transaction_deposit (c : Customer) (t : InputTransaction)
    (h : rust_trim t.typ = "deposit") : apply_transaction c t = do_deposit c t := by
  unfold apply_transaction
  rw [if_pos h]

/-- A record whose trimmed type is `withdrawal` is dispatched to
`do_withdrawal`. -/
lemma apply_transaction_withdrawal (c : Customer) (t : InputTransaction)
    (h : rust_trim t.typ = "withdrawal") : apply_transaction c t = do_withdrawal c t := by
  unfold apply_transaction
  rw [if_neg (by rw [h]; decide), if_pos h]

/-- When the checked operation on `total` overflows, `change_balance` leaves
the customer unchanged. -/
lemma change_balance_overflow (c : Customer) (t : InputTransaction)
    (f : ℤ → ℤ → Option ℤ) (a : ℤ)
    (ha : parseDecimal (rust_trim t.amount) = some a) (hn : f c.total a = none) :
    change_balance c t f = some c := by
  simp only [change_balance, ha, hn]

/-- When both checked operations succeed, `change_balance` commits both
updates in one state replacement. -/
lemma change_balance_commit (c : Customer) (t : InputTransaction)
    (f : ℤ → ℤ → Option ℤ) (a nt na : ℤ)
    (ha : parseDecimal (rust_trim t.amount) = some a)
    (h1 : f c.total a = some nt) (h2 : f c.available a = some na) :
    change_balance c t f = some { c with total := nt, available := na } := by
  simp only [change_balance, ha, h1, h2]

/-- One applied transaction preserves `total = available + held` when none of
its saturating operations clamps. -/
lemma invariant_step (c c' : Customer) (t : InputTransaction)
    (hinv : c.total = c.available + c.held)
    (hns : no_saturation_step c t)
    (happ : apply_transaction c t = some c') :
    c'.total = c'.available + c'.held := by
  unfold apply_transaction at happ
  split_ifs at happ with h1 h2 h3 h4 h5
  · unfold do_deposit change_balance at happ
    split at happ
    · obtain rfl := Option.some.inj happ; exact hinv
    · rename_i amount hp
      split at happ
      · obtain rfl := Option.some.inj happ; exact hinv
      · rename_i nt ht
        split at happ
        · rename_i na hna
          obtain rfl := Option.some.inj happ
          have e1 := checked_add_some ht
          have e2 := checked_add_some hna
          simp only [e1, e2]
          omega
        · exact Option.noConfusion happ
  · unfold do_withdrawal change_balance at happ
    split at happ
    · obtain rfl := Option.some.inj happ; exact hinv
    · rename_i amount hp
      split at happ
      · obtain rfl := Option.some.inj happ; exact hinv
      · rename_i nt ht
        split at happ
        · rename_i na hna
          obtain rfl := Option.some.inj happ
          have e1 := checked_sub_some ht
          have e2 := checked_sub_some hna
          simp only [e1, e2]
          omega
        · exact Option.noConfusion happ
  · obtain rfl := Option.some.inj happ
    rcases hf : find_disputed_transaction c t with _ | r
    · simp only [do_dispute, hf]; exact hinv
    · simp only [do_dispute, hf]
      by_cases hty : r.typ = "deposit"
      · rcases hp : parseDecimal (rust_trim r.amount) with _ | a
        · simp only [dispute_transaction, if_pos hty, hp]; exact hinv
        · obtain ⟨e1, e2, _, _, _⟩ := hns r hf hty a hp
          simp only [dispute_transaction, if_pos hty, hp, e1, e2]
          omega
      · simp only [dispute_transaction, if_neg hty]; exact hinv
  · obtain rfl := Option.some.inj happ
    rcases hf : find_disputed_transaction c t with _ | r
    · simp only [do_resolve, hf]; exact hinv
    · simp only [do_resolve, hf]
      by_cases hty : r.typ = "deposit"
      · rcases hp : parseDecimal (rust_trim r.amount) with _ | a
        · simp only [resolve_transaction, if_pos hty, hp]; exact hinv
        · obtain ⟨_, _, e3, e4, _⟩ := hns r hf hty a hp
          simp only [resolve_transaction, if_pos hty, hp, e3, e4]
          omega
      · simp only [resolve_transaction, if_neg hty]; exact hinv
  · obtain rfl := Option.some.inj happ
    rcases hf : find_disputed_transaction c t with _ | r
    · simp only [do_chargeback, hf]; exact hinv
    · simp only [do_chargeback, hf]
      by_cases hty : r.typ = "deposit"
      · rcases hp : parseDecimal (rust_trim r.amount) with _ | a
        · simp only [chargeback_transaction, if_pos hty, hp]; exact hinv
        · obtain ⟨_, _, e3, _, e5⟩ := hns r hf hty a hp
          simp only [chargeback_transaction, if_pos hty, hp, e3, e5]
          omega
      · simp only [chargeback_transaction, if_neg hty]; exact hinv
  · obtain rfl := Option.some.inj happ; exact hinv

/-- Replaying a transaction list preserves `total = available + held` when no
traversed saturating operation clamps. -/
lemma invariant_replay (ts : List InputTransaction) (c c' : Customer)
    (hinv : c.total = c.available + c.held)
    (hns : no_saturation_replay c ts)
    (happ : replay_transactions c ts = some c') :
    c'.total = c'.available + c'.held := by
  induction ts generalizing c with
  | nil =>
    obtain rfl := Option.some.inj happ
    exact hinv
  | cons t ts ih =>
    unfold replay_transactions at happ
    rcases ha : apply_transaction c t with _ | c1
    · rw [ha] at happ; exact Option.noConfusion happ
    · rw [ha] at happ
      exact ih c1 (invariant_step c c1 t hinv hns.1 ha) (hns.2 c1 ha) happ

/-- `dispute_transaction` never changes the `locked` flag. -/
lemma dispute_transaction_locked (c : Customer) (r : InputTransaction) :
    (dispute_transaction c r).locked = c.locked := by
  unfold dispute_transaction
  split
  · split <;> rfl
  · rfl

/-- `resolve_transaction` never changes the `locked` flag. -/
lemma resolve_transaction_locked (c : Customer) (r : InputTransaction) :
    (resolve_transaction c r).locked = c.locked := by
  unfold resolve_transaction
  split
  · split <;> rfl
  · rfl

/-- `change_balance` never changes the `locked` flag. -/
lemma change_balance_locked {c c' : Customer} {t : InputTransaction}
    {f : ℤ → ℤ → Option ℤ} (h : change_balance c t f = some c') :
    c'.locked = c.locked := by
  unfold change_balance at h
  split at h
  · obtain rfl := Option.some.inj h; rfl
  · split at h
    · obtain rfl := Option.some.inj h; rfl
    · split at h
      · obtain rfl := Option.some.inj h; rfl
      · exact Option.noConfusion h

/-- `do_dispute` never changes the `locked` flag. -/
lemma do_dispute_locked (c : Customer) (t : InputTransaction) :
    (do_dispute c t).locked = c.locked := by
  unfold do_dispute
  split
  · exact dispute_transaction_locked c _
  · rfl

/-- `do_resolve` never changes the `locked` flag. -/
lemma do_resolve_locked (c : Customer) (t : InputTransaction) :
    (do_resolve c t).locked = c.locked := by
  unfold do_resolve
  split
  · exact resolve_transaction_locked c _
  · rfl

/-! ### Claim C1 -/

/-- Claim C1 is false as stated: on the log that deposits the maximal value
and then disputes it twice, every transaction is applied, yet the final state
has `total = decMAX` while `available + held = 0` — the second dispute's
saturating addition on `held` clamps while the subtraction on `available`
moves the full amount. -/
theorem claim1_counterexample :
    (compute_customer_state { Customer.new with transactions := doubleDisputeLog }).map
      (fun c => (c.available, c.held, c.total)) = some (-decMAX, decMAX, decMAX) ∧
    decMAX ≠ -decMAX + decMAX := by decide

/-- Claim C1 (amended): starting from the all-zero account state, the
invariant `total = available + held` holds after every successfully applied
transaction of the replay, provided none of the saturating operations
performed by dispute/resolve/chargeback clamps along the way. -/
theorem claim1_amended (L ts : List InputTransaction) (c' : Customer)
    (hns : no_saturation_replay { Customer.new with transactions := L } ts)
    (happ : replay_transactions { Customer.new with transactions := L } ts = some c') :
    c'.total = c'.available + c'.held :=
  invariant_replay ts { Customer.new with transactions := L } c'
    (by simp [Customer.new]) hns happ

/-- Witness for `claim1_amended`: a single deposit of 2.5 satisfies the
hypotheses and the invariant afterwards. -/
theorem claim1_amended_witness :
    replay_transactions { Customer.new with transactions := [wSmallDeposit] } [wSmallDeposit] =
      some ⟨dec 25 1, 0, dec 25 1, false, [wSmallDeposit]⟩ ∧
    dec 25 1 = dec 25 1 + (0 : ℤ) := by
  constructor
  · decide
  · have h := claim1_amended [wSmallDeposit] [wSmallDeposit]
      ⟨dec 25 1, 0, dec 25 1, false, [wSmallDeposit]⟩
      (by
        constructor
        · intro r hr hty a hpa
          have hfind : find_disputed_transaction
              { Customer.new with transactions := [wSmallDeposit] } wSmallDeposit =
              some wSmallDeposit := by decide
          rw [hfind] at hr
          obtain rfl := Option.some.inj hr
          have hpd : parseDecimal (rust_trim wSmallDeposit.amount) = some (dec 25 1) := by
            decide
          rw [hpd] at hpa
          obtain rfl := Option.some.inj hpa
          decide
        · intro c' _
          exact trivial)
      (by decide)
    exact h

/-! ### Claim C2 -/

/-- Claim C2 is contradicted by the code (a code bug relative to the spec's
recoverability guarantee): a record whose client id does not parse makes
`add_customer_transaction` return `Err`, and the `?` inside
`organize_transactions_by_customer` aborts the ingestion loop, so the
following well-formed record for client 2 is never ingested — although it
would be ingested on its own.  (The caller then discards the `Err`, so the
run itself is not terminated.) -/
theorem claim2_ingestion_aborts :
    organize_transactions_by_customer emptyCustomerMap add_customer_transaction
      [⟨"deposit", "abc", "1", "1.0"⟩, ⟨"deposit", "2", "2", "1.0"⟩] 2 = none ∧
    (organize_transactions_by_customer emptyCustomerMap add_customer_transaction
      [⟨"deposit", "2", "2", "1.0"⟩] 2).isSome = true ∧
    parseU32 (rust_trim ("abc")) = none := by decide

/-! ### Claim C3 -/

/-- Claim C3: for a deposit or withdrawal whose amount parses, if the checked
operation on `total` overflows, the record leaves the account state entirely
unchanged; otherwise both the `total` and `available` updates are committed
together in a single state replacement, with `held`, `locked` and the log
untouched. -/
theorem claim3_atomic (c : Customer) (t : InputTransaction) (a : ℤ)
    (ha : parseDecimal (rust_trim t.amount) = some a) :
    (rust_trim t.typ = "deposit" →
      (checked_add c.total a = none → apply_transaction c t = some c) ∧
      (∀ nt na, checked_add c.total a = some nt → checked_add c.available a = some na →
        apply_transaction c t = some { c with total := nt, available := na })) ∧
    (rust_trim t.typ = "withdrawal" →
      (checked_sub c.total a = none → apply_transaction c t = some c) ∧
      (∀ nt na, checked_sub c.total a = some nt → checked_sub c.available a = some na →
        apply_transaction c t = some { c with total := nt, available := na })) := by
  constructor
  · intro h
    rw [apply_transaction_deposit c t h]
    exact ⟨fun hn => change_balance_overflow c t checked_add a ha hn,
      fun nt na h1 h2 => change_balance_commit c t checked_add a nt na ha h1 h2⟩
  · intro h
    rw [apply_transaction_withdrawal c t h]
    exact ⟨fun hn => change_balance_overflow c t checked_sub a ha hn,
      fun nt na h1 h2 => change_balance_commit c t checked_sub a nt na ha h1 h2⟩

/-- Witness for `claim3_atomic`: a deposit of 2 onto the fresh account
commits `total` and `available` together. -/
theorem claim3_atomic_witness :
    parseDecimal (rust_trim wDepositTwo.amount) = some (dec 2 0) ∧
    apply_transaction Customer.new wDepositTwo =
      some { Customer.new with total := dec 2 0, available := dec 2 0 } :=
  ⟨by decide,
    ((claim3_atomic Customer.new wDepositTwo (dec 2 0) (by decide)).1 (by decide)).2
      (dec 2 0) (dec 2 0) (by decide) (by decide)⟩

/-! ### Claim C4 -/

/-- Claim C4 is false as stated: the deposit record with the non-numeric
transaction id "xyz" is ingested into client 7's log and applied to the
balances (available and total become 5.0). -/
theorem claim4_counterexample :
    (((organize_transactions_by_customer emptyCustomerMap add_customer_transaction
        [badTxRecord]) 7).bind compute_customer_state).map
      (fun c => (c.available, c.total, c.transactions)) =
      some (dec 50 1, dec 50 1, [badTxRecord]) ∧
    parseU32 (rust_trim badTxRecord.tx) = none ∧
    dec 50 1 ≠ (0 : ℤ) := by decide

/-- Claim C4 (amended): a record with a non-numeric transaction id is not
rejected at ingestion — ingestion parses only the client id and appends the
record to the client's log whatever its `tx` field holds; a deposit or
withdrawal is applied identically for any `tx` field; the only consequence of
a non-numeric transaction id is that dispute/resolve/chargeback lookups can
never return such a record (every record a lookup returns has a numeric id
equal to the searched one). -/
theorem claim4_amended (t : InputTransaction) (m : CustomerMap) (cid : ℕ)
    (hc : parseU32 (rust_trim t.client) = some cid) :
    (∃ m', add_customer_transaction t m = some m' ∧
      m' cid = some { (m cid).getD Customer.new with
        transactions := ((m cid).getD Customer.new).transactions ++ [t] }) ∧
    (∀ c s, rust_trim t.typ = "deposit" ∨ rust_trim t.typ = "withdrawal" →
      apply_transaction c { t with tx := s } = apply_transaction c t) ∧
    (∀ c n r, find_transaction c n = some r → parseU32 (rust_trim r.tx) = some n) := by
  refine ⟨?_, ?_, ?_⟩
  · unfold add_customer_transaction
    rw [hc]
    exact ⟨_, rfl, by simp⟩
  · intro c s h
    rcases h with h | h <;>
      simp only [apply_transaction, do_deposit, do_withdrawal, change_balance, h] <;> rfl
  · intro c n r hfind
    have hp := List.find?_some hfind
    rcases hq : parseU32 (rust_trim r.tx) with _ | k
    · rw [hq] at hp; exact Bool.noConfusion hp
    · rw [hq] at hp
      have : k = n := by simpa using hp
      rw [this]

/-- Witness for `claim4_amended`, at the record with tx id "xyz". -/
theorem claim4_amended_witness :
    parseU32 (rust_trim badTxRecord.client) = some 7 ∧
    ((∃ m', add_customer_transaction badTxRecord emptyCustomerMap = some m' ∧
      m' 7 = some { (emptyCustomerMap 7).getD Customer.new with
        transactions := ((emptyCustomerMap 7).getD Customer.new).transactions ++ [badTxRecord] }) ∧
    (∀ c s, rust_trim badTxRecord.typ = "deposit" ∨ rust_trim badTxRecord.typ = "withdrawal" →
      apply_transaction c { badTxRecord with tx := s } = apply_transaction c badTxRecord) ∧
    (∀ c n r, find_transaction c n = some r → parseU32 (rust_trim r.tx) = some n)) :=
  ⟨by decide, claim4_amended badTxRecord emptyCustomerMap 7 (by decide)⟩

/-! ### Claim C5 -/

/-- Claim C5: a withdrawal whose checked subtractions stay in range is applied
even when it drives `available` negative (no insufficient-funds check), and
replaying the specification's five-row example yields customer 1 with
`available = 1.5, held = 0, total = 1.5, locked = false` and customer 2 with
`available = -1.0, held = 0, total = -1.0, locked = false`. -/
theorem claim5_no_insufficient_funds :
    (∀ (c : Customer) (t : InputTransaction) (a nt na : ℤ),
      rust_trim t.typ = "withdrawal" → parseDecimal (rust_trim t.amount) = some a →
      checked_sub c.total a = some nt → checked_sub c.available a = some na →
      apply_transaction c t = some { c with total := nt, available := na }) ∧
    (((organize_transactions_by_customer emptyCustomerMap add_customer_transaction
        exampleRows) 1).bind compute_customer_state).map
      (fun c => (c.available, c.held, c.total, c.locked)) =
      some (dec 15 1, 0, dec 15 1, false) ∧
    (((organize_transactions_by_customer emptyCustomerMap add_customer_transaction
        exampleRows) 2).bind compute_customer_state).map
      (fun c => (c.available, c.held, c.total, c.locked)) =
      some (dec (-10) 1, 0, dec (-10) 1, false) ∧
    dec (-10) 1 < 0 := by
  refine ⟨?_, by decide, by decide, by decide⟩
  intro c t a nt na h ha h1 h2
  rw [apply_transaction_withdrawal c t h]
  exact change_balance_commit c t checked_sub a nt na ha h1 h2

/-- Witness for `claim5_no_insufficient_funds`: withdrawing 3.0 from an
account holding 2.0 succeeds and leaves `available = -1.0`. -/
theorem claim5_witness :
    checked_sub wNegBase.available (dec 3 0) = some (dec (-1) 0) ∧
    apply_transaction wNegBase wWithdrawThree =
      some { wNegBase with total := dec (-1) 0, available := dec (-1) 0 } :=
  ⟨by decide,
    claim5_no_insufficient_funds.1 wNegBase wWithdrawThree (dec 3 0)
      (dec (-1) 0) (dec (-1) 0) (by decide) (by decide) (by decide) (by decide)⟩

/-! ### Claim C6 -/

/-- Claim C6 is false as stated: a record of type "Deposit" (differing from
"deposit" only in case) is ignored as unknown while the lowercase form is
applied, and a stored deposit whose type carries surrounding whitespace is
dispatched as a deposit yet rejected when looked up as a dispute target,
because the target comparison does not trim. -/
theorem claim6_counterexample :
    (apply_transaction Customer.new ⟨"Deposit", "1", "1", "5"⟩ = some Customer.new ∧
      apply_transaction Customer.new ⟨"deposit", "1", "1", "5"⟩ =
        some { Customer.new with available := dec 5 0, total := dec 5 0 } ∧
      dec 5 0 ≠ Customer.new.available) ∧
    ((apply_transaction { Customer.new with transactions := [⟨" deposit", "1", "1", "5"⟩] }
        ⟨"dispute", "1", "1", ""⟩).map (fun c => c.held) = some 0 ∧
      (apply_transaction { Customer.new with transactions := [⟨"deposit", "1", "1", "5"⟩] }
        ⟨"dispute", "1", "1", ""⟩).map (fun c => c.held) = some (dec 5 0)) := by decide

/-- Claim C6 (amended): dispatch trims surrounding whitespace — two records
whose types agree after trimming are processed identically — but recognition
is case-sensitive: any trimmed type other than the five lowercase keywords
(including case variants) is ignored as unknown; and when a record is looked
up as the target of a dispute/resolve/chargeback, its stored type is compared
to "deposit" without trimming. -/
theorem claim6_amended (c : Customer) (t : InputTransaction) (s : String)
    (r : InputTransaction) :
    (rust_trim s = rust_trim t.typ →
      apply_transaction c { t with typ := s } = apply_transaction c t) ∧
    (rust_trim t.typ ∉
        (["deposit", "withdrawal", "dispute", "resolve", "chargeback"] : List String) →
      apply_transaction c t = some c) ∧
    (r.typ ≠ "deposit" →
      dispute_transaction c r = c ∧ resolve_transaction c r = c ∧
        chargeback_transaction c r = c) := by
  refine ⟨?_, ?_, ?_⟩
  · intro h
    unfold apply_transaction
    simp only [show ({ t with typ := s } : InputTransaction).typ = s from rfl, h]
    split_ifs <;> rfl
  · intro h
    simp only [List.mem_cons, List.mem_singleton, not_or] at h
    obtain ⟨n1, n2, n3, n4, n5, -⟩ := h
    unfold apply_transaction
    rw [if_neg n1, if_neg n2, if_neg n3, if_neg n4, if_neg n5]
  · intro h
    refine ⟨?_, ?_, ?_⟩
    · unfold dispute_transaction; rw [if_neg h]
    · unfold resolve_transaction; rw [if_neg h]
    · unfold chargeback_transaction; rw [if_neg h]

/-- Witness for `claim6_amended`: a whitespace-padded "deposit" dispatches
like the canonical form, "Deposit" is ignored as unknown, and a
whitespace-padded stored type is not accepted by the dispute target check. -/
theorem claim6_amended_witness :
    apply_transaction Customer.new ⟨"deposit", "1", "1", "2"⟩ =
      apply_transaction Customer.new ⟨" deposit ", "1", "1", "2"⟩ ∧
    apply_transaction Customer.new ⟨"Deposit", "1", "1", "2"⟩ = some Customer.new ∧
    dispute_transaction Customer.new ⟨" deposit", "1", "1", "2"⟩ = Customer.new := by
  refine ⟨?_, ?_, ?_⟩
  · exact (claim6_amended Customer.new ⟨" deposit ", "1", "1", "2"⟩ ("deposit")
      ⟨"", "", "", ""⟩).1 (by decide)
  · exact (claim6_amended Customer.new ⟨"Deposit", "1", "1", "2"⟩ ("")
      ⟨"", "", "", ""⟩).2.1 (by decide)
  · exact ((claim6_amended Customer.new ⟨"x", "1", "1", "2"⟩ ("")
      ⟨" deposit", "1", "1", "2"⟩).2.2 (by decide)).1

/-! ### Claim C7 -/

/-- Claim C7 is false as stated: on `saturationLog` the deposit of the maximal
value is successfully applied, the account is later driven to
`available = -decMAX` by two withdrawals, and the adjacent dispute/resolve
pair on that deposit does not restore the pre-dispute state — the dispute's
saturating subtraction on `available` clamps, so after the resolve
`available` is `0` instead of `-decMAX`. -/
theorem claim7_counterexample :
    (replay_transactions { Customer.new with transactions := saturationLog }
        (saturationLog.take 3)).map (fun c => c.available) = some (-decMAX) ∧
    (replay_transactions { Customer.new with transactions := saturationLog }
        saturationLog).map (fun c => c.available) = some 0 ∧
    (0 : ℤ) ≠ -decMAX := by decide

/-- Claim C7 (amended): when a dispute of a deposit is followed by a resolve
referencing the same transaction id, and none of the four saturating
operations involved clamps, the resolve restores `available`, `held` and
`total` exactly to their values just before the dispute; the amount is
re-read from the referenced deposit record at each lookup. -/
theorem claim7_amended (c c1 c2 : Customer) (dp rs r : InputTransaction) (a : ℤ)
    (hdp : rust_trim dp.typ = "dispute") (hrs : rust_trim rs.typ = "resolve")
    (hsame : rs.tx = dp.tx)
    (hfind : find_disputed_transaction c dp = some r)
    (hr : r.typ = "deposit") (ha : parseDecimal (rust_trim r.amount) = some a)
    (h1 : saturating_add c.held a = c.held + a)
    (h2 : saturating_sub c.available a = c.available - a)
    (happ1 : apply_transaction c dp = some c1)
    (h3 : saturating_sub c1.held a = c1.held - a)
    (h4 : saturating_add c1.available a = c1.available + a)
    (happ2 : apply_transaction c1 rs = some c2) :
    c2.available = c.available ∧ c2.held = c.held ∧ c2.total = c.total := by
  have hd1 : apply_transaction c dp = some (do_dispute c dp) := by
    unfold apply_transaction
    rw [if_neg (by rw [hdp]; decide), if_neg (by rw [hdp]; decide), if_pos hdp]
  rw [hd1] at happ1
  have hc1 : c1 = { c with held := c.held + a, available := c.available - a } := by
    have hb : do_dispute c dp = { c with held := c.held + a, available := c.available - a } := by
      simp only [do_dispute, hfind, dispute_transaction, if_pos hr, ha, h1, h2]
    exact (Option.some.inj happ1).symm.trans hb
  have htr : c1.transactions = c.transactions := by rw [hc1]
  have hfind2 : find_disputed_transaction c1 rs = some r := by
    unfold find_disputed_transaction at hfind ⊢
    rw [hsame]
    rcases hq : parseU32 (rust_trim dp.tx) with _ | k
    · rw [hq] at hfind; exact Option.noConfusion hfind
    · rw [hq] at hfind
      simp only [hq]
      unfold find_transaction at hfind ⊢
      rw [htr]
      exact hfind
  have hd2 : apply_transaction c1 rs = some (do_resolve c1 rs) := by
    unfold apply_transaction
    rw [if_neg (by rw [hrs]; decide), if_neg (by rw [hrs]; decide),
      if_neg (by rw [hrs]; decide), if_pos hrs]
  rw [hd2] at happ2
  have hc2 : c2 = { c1 with held := c1.held - a, available := c1.available + a } := by
    have hb : do_resolve c1 rs =
        { c1 with held := c1.held - a, available := c1.available + a } := by
      simp only [do_resolve, hfind2, resolve_transaction, if_pos hr, ha, h3, h4]
    exact (Option.some.inj happ2).symm.trans hb
  rw [hc2, hc1]
  refine ⟨?_, ?_, rfl⟩
  · show c.available - a + a = c.available
    omega
  · show c.held + a - a = c.held
    omega

/-- Witness for `claim7_amended`: dispute then resolve of a deposit of 4
restores the pre-dispute state exactly. -/
theorem claim7_amended_witness :
    apply_transaction wPreDispute wDisputeOne = some wMidDispute ∧
    apply_transaction wMidDispute wResolveOne = some wPreDispute ∧
    (wPreDispute.available = wPreDispute.available ∧ wPreDispute.held = wPreDispute.held ∧
      wPreDispute.total = wPreDispute.total) :=
  ⟨by decide, by decide,
    claim7_amended wPreDispute wMidDispute wPreDispute wDisputeOne wResolveOne
      wDepositFour (dec 4 0) (by decide) (by decide) (by decide) (by decide) (by decide)
      (by decide) (by decide) (by decide) (by decide) (by decide) (by decide) (by decide)⟩

/-! ### Claim C8 -/

/-- Claim C8: a dispute whose referenced transaction id does not resolve to a
record in the customer's log, or resolves to a record that is not a deposit,
is a no-op: the whole account state — balances, lock flag and log — is
returned unchanged. -/
theorem claim8_dispute_noop (c : Customer) (t : InputTransaction)
    (htyp : rust_trim t.typ = "dispute")
    (h : find_disputed_transaction c t = none ∨
      ∃ r, find_disputed_transaction c t = some r ∧ r.typ ≠ "deposit") :
    apply_transaction c t = some c := by
  have hd : apply_transaction c t = some (do_dispute c t) := by
    unfold apply_transaction
    rw [if_neg (by rw [htyp]; decide), if_neg (by rw [htyp]; decide), if_pos htyp]
  rw [hd]
  rcases h with h | ⟨r, hr, hne⟩
  · simp only [do_dispute, h]
  · simp only [do_dispute, hr, dispute_transaction, if_neg hne]

/-- Witness for `claim8_dispute_noop`: disputing the absent transaction id 9
on a fresh account changes nothing. -/
theorem claim8_dispute_noop_witness :
    rust_trim wDisputeNine.typ = "dispute" ∧
    apply_transaction Customer.new wDisputeNine = some Customer.new :=
  ⟨by decide,
    claim8_dispute_noop Customer.new wDisputeNine (by decide) (Or.inl (by decide))⟩

/-! ### Claim C9 -/

/-- Claim C9: the `locked` flag starts `false`, and for every applied
transaction it either keeps its value or flips from `false` to `true`, the
latter only for a chargeback whose lookup found a deposit with a parsable
amount; in particular `locked` is never cleared, so it is monotone along
every replay. -/
theorem claim9_locked_monotone :
    Customer.new.locked = false ∧
    ∀ c t c', apply_transaction c t = some c' →
      (c'.locked = c.locked ∨
        (c.locked = false ∧ c'.locked = true ∧ rust_trim t.typ = "chargeback" ∧
          ∃ r, find_disputed_transaction c t = some r ∧ r.typ = "deposit" ∧
            (parseDecimal (rust_trim r.amount)).isSome = true)) := by
  refine ⟨rfl, ?_⟩
  intro c t c' happ
  unfold apply_transaction at happ
  split_ifs at happ with h1 h2 h3 h4 h5
  · left; exact change_balance_locked happ
  · left; exact change_balance_locked happ
  · left; obtain rfl := Option.some.inj happ; exact do_dispute_locked c t
  · left; obtain rfl := Option.some.inj happ; exact do_resolve_locked c t
  · obtain rfl := Option.some.inj happ
    rcases hf : find_disputed_transaction c t with _ | r
    · left; simp only [do_chargeback, hf]
    · by_cases hty : r.typ = "deposit"
      · rcases hp : parseDecimal (rust_trim r.amount) with _ | a
        · left; simp only [do_chargeback, hf, chargeback_transaction, if_pos hty, hp]
        · cases hL : c.locked
          · right
            refine ⟨rfl, ?_, h5, r, rfl, hty, by rw [hp]; rfl⟩
            simp only [do_chargeback, hf, chargeback_transaction, if_pos hty, hp]
          · left
            simp only [do_chargeback, hf, chargeback_transaction, if_pos hty, hp, hL]
      · left; simp only [do_chargeback, hf, chargeback_transaction, if_neg hty]
  · left; obtain rfl := Option.some.inj happ; rfl

/-- Witness for `claim9_locked_monotone`: a chargeback of the deposit of 5
flips `locked` from `false` to `true`. -/
theorem claim9_locked_monotone_witness :
    apply_transaction wPreChargeback ⟨"chargeback", "1", "1", ""⟩ = some wPostChargeback ∧
    (wPostChargeback.locked = wPreChargeback.locked ∨
      (wPreChargeback.locked = false ∧ wPostChargeback.locked = true ∧
        rust_trim (InputTransaction.typ ⟨"chargeback", "1", "1", ""⟩) = "chargeback" ∧
        ∃ r, find_disputed_transaction wPreChargeback ⟨"chargeback", "1", "1", ""⟩ = some r ∧
          r.typ = "deposit" ∧ (parseDecimal (rust_trim r.amount)).isSome = true)) :=
  ⟨by decide,
    claim9_locked_monotone.2 wPreChargeback ⟨"chargeback", "1", "1", ""⟩ wPostChargeback
      (by decide)⟩

/-! ### Claim C10 -/

/-- Claim C10 is contradicted by the code (a code bug relative to the
`expect` message's own assertion): on `overflowAbortLog` the replay reaches
`available = decMAX, total = 0` (a resolve of an undisputed deposit inflates
`available`), and the final deposit of 1 then succeeds on `total` but
overflows on `available`, so the `expect` in `change_balance` panics —
modelled as the replay returning `none`. -/
theorem claim10_expect_panics :
    compute_customer_state { Customer.new with transactions := overflowAbortLog } = none ∧
    (replay_transactions { Customer.new with transactions := overflowAbortLog }
        (overflowAbortLog.take 3)).map (fun c => (c.available, c.total)) = some (decMAX, 0) ∧
    checked_add 0 (dec 1 0) = some (dec 1 0) ∧
    checked_add decMAX (dec 1 0) = none := by decide
